import Mathlib

/-!
Verification of BootlegCraft (`src/BootlegCraft/main_fixed_v2.py`), a small
Panda3D voxel game.  The game state (block world, selected block type, menu
flag, camera pose, mouse-capture data) is embedded shallowly; scalar
quantities are modelled as rationals.  The Panda3D engine primitives that the
code calls are modelled as follows:

* the collision-ray queue (`CollisionHandlerQueue`) is a list of entries, each
  carrying the engine's intersection distance (`sortKey`, used by
  `sortEntries`), the surface normal reported by `getSurfaceNormal`, and the
  index of the owning block node in the world list (the `'owner'` python tag
  resolved to its node);
* `NodePath.getDistance` is the Euclidean distance between two positions; the
  comparisons `distance < 12` / `distance < 14` against the nonnegative
  thresholds are embedded as the equivalent squared comparisons (`distLT`),
  and `distLT_iff_sqrt` proves the equivalence with the genuine
  square-root distance;
* `sin(degToRad h)` and `cos(degToRad h)` in the movement code are abstracted
  as parameters `sinDeg cosDeg : ℚ → ℚ` of `update`; every theorem below
  holds for an arbitrary interpretation of these functions, hence in
  particular for real trigonometry (no claim depends on their values).
-/

namespace BootlegCraft

/-- The four block types of `loadModels` / the selection keys 1–4. -/
inductive BlockType
  | grass
  | dirt
  | sand
  | stone
deriving DecidableEq, Repr

/-- A 3-D vector (positions, normals, Hpr triples). -/
structure Vec3 where
  x : ℚ
  y : ℚ
  z : ℚ
deriving DecidableEq, Repr

/-- Squared Euclidean distance between two points. -/
def sqDist (p q : Vec3) : ℚ :=
  (p.x - q.x) ^ 2 + (p.y - q.y) ^ 2 + (p.z - q.z) ^ 2

/-- `distLT p q r` embeds the source comparison
`p.getDistance(q) < r`: for a nonnegative threshold `r` the Euclidean
distance is `< r` iff the squared distance is `< r * r`
(see `distLT_iff_sqrt`). -/
abbrev distLT (p q : Vec3) (r : ℚ) : Prop :=
  sqDist p q < r * r

/-- A block scene node: position set by `setPos`, the instanced model type,
the `setHpr` rotation, and whether its collider still carries the `'owner'`
python tag. -/
structure Block where
  pos : Vec3
  btype : BlockType
  hpr : Vec3
  tagOwner : Bool
deriving DecidableEq, Repr

/-- The block node built by `createNewBlock`: position `(x, y, z)`, the given
type, the grass-only `setHpr(0, 90, 0)` rotation, and the `'owner'` tag set on
its collider. -/
def mkBlockNode (x y z : ℚ) (t : BlockType) : Block :=
  { pos := ⟨x, y, z⟩
    btype := t
    hpr := if t = BlockType.grass then ⟨0, 90, 0⟩ else ⟨0, 0, 0⟩
    tagOwner := true }

/-- `createNewBlock`: attaches one new block node to the scene graph
(appends it to the world list). -/
def createNewBlock (w : List Block) (x y z : ℚ) (t : BlockType) : List Block :=
  w ++ [mkBlockNode x y z t]

/-- The `keyMap` dictionary of held movement keys. -/
structure KeyMap where
  forward : Bool
  backward : Bool
  left : Bool
  right : Bool
  up : Bool
  down : Bool
deriving DecidableEq, Repr

/-- The mutable state of `MyGame`: the block world (children of `render`),
the selected block type, the menu flag, the mouse-capture state
(`cameraSwingActivated`, last pointer position, window properties), the held
keys, and the camera position and Hpr orientation. -/
@[ext]
structure GameState where
  world : List Block
  selectedBlockType : BlockType
  menuActive : Bool
  cameraSwingActivated : Bool
  keyMap : KeyMap
  camPos : Vec3
  camH : ℚ
  camP : ℚ
  camR : ℚ
  lastMouseX : ℚ
  lastMouseY : ℚ
  cursorHidden : Bool
  mouseConfined : Bool
deriving DecidableEq, Repr

/-- One entry of the collision-ray queue: the engine's intersection distance
used by `sortEntries`, the index in the world list of the node stored in the
collider's `'owner'` python tag, and the surface normal reported by
`getSurfaceNormal`. -/
structure RayEntry where
  sortKey : ℚ
  ownerIdx : ℕ
  normal : Vec3
deriving DecidableEq, Repr

/-- Ordering of queue entries by the engine's intersection distance. -/
def keyLE (a b : RayEntry) : Prop :=
  a.sortKey ≤ b.sortKey

instance : DecidableRel keyLE := fun a b =>
  inferInstanceAs (Decidable (a.sortKey ≤ b.sortKey))

instance : IsTotal RayEntry keyLE :=
  ⟨fun a b => le_total a.sortKey b.sortKey⟩

instance : IsTrans RayEntry keyLE :=
  ⟨fun _ _ _ hab hbc => le_trans hab hbc⟩

/-- `CollisionHandlerQueue.sortEntries`: sorts the queue by ascending
intersection distance. -/
def sortEntries (q : List RayEntry) : List RayEntry :=
  List.insertionSort keyLE q

/-- `removeBlock`: when the ray queue is non-empty (`getNumEntries() > 0`,
i.e. the sorted queue has a head), sort it, take the nearest entry
(`getEntry(0)`), resolve the hit collider's `'owner'` tag to the owning block
node, and, if the camera-to-block distance is `< 12`, clear the `'owner'` tag
on the collider and remove the block node from the scene graph; otherwise
leave the state unchanged. -/
def removeBlock (s : GameState) (q : List RayEntry) : GameState :=
  match (sortEntries q).head? with
  | none => s
  | some rayHit =>
    match s.world[rayHit.ownerIdx]? with
    | none => s
    | some hitObject =>
      if distLT hitObject.pos s.camPos 12 then
        { s with world :=
            ((s.world.set rayHit.ownerIdx
              { hitObject with tagOwner := false }).eraseIdx rayHit.ownerIdx) }
      else s

/-- `placeBlock`: when the ray queue is non-empty, sort it, take the nearest
entry, read the surface normal and the owning block node, and, if the
camera-to-block distance is `< 14`, create a new block of the selected type at
`hitBlockPos + normal * 2`; otherwise leave the state unchanged. -/
def placeBlock (s : GameState) (q : List RayEntry) : GameState :=
  match (sortEntries q).head? with
  | none => s
  | some rayHit =>
    match s.world[rayHit.ownerIdx]? with
    | none => s
    | some hitObject =>
      if distLT hitObject.pos s.camPos 14 then
        { s with world :=
            (createNewBlock s.world
              (hitObject.pos.x + rayHit.normal.x * 2)
              (hitObject.pos.y + rayHit.normal.y * 2)
              (hitObject.pos.z + rayHit.normal.z * 2)
              s.selectedBlockType) }
      else s

/-- `setSelectedBlockType`. -/
def setSelectedBlockType (s : GameState) (t : BlockType) : GameState :=
  { s with selectedBlockType := t }

/-- The numeric-key bindings from `setupControls`:
`enumerate(['grass', 'dirt', 'sand', 'stone'], start=1)` accepts key `str(i)`
with handler `setSelectedBlockType`; keys other than `'1'`–`'4'` have no
binding. -/
def numericKeySelect (s : GameState) (n : ℕ) : GameState :=
  match n with
  | 1 => setSelectedBlockType s BlockType.grass
  | 2 => setSelectedBlockType s BlockType.dirt
  | 3 => setSelectedBlockType s BlockType.sand
  | 4 => setSelectedBlockType s BlockType.stone
  | _ => s

/-- `updateKeyMap`, keyed by the movement action name. -/
inductive MoveKey
  | forward
  | backward
  | left
  | right
  | up
  | down
deriving DecidableEq, Repr

/-- Write one entry of the `keyMap` dictionary. -/
def KeyMap.set (km : KeyMap) (k : MoveKey) (v : Bool) : KeyMap :=
  match k with
  | MoveKey.forward => { km with forward := v }
  | MoveKey.backward => { km with backward := v }
  | MoveKey.left => { km with left := v }
  | MoveKey.right => { km with right := v }
  | MoveKey.up => { km with up := v }
  | MoveKey.down => { km with down := v }

/-- `updateKeyMap`. -/
def updateKeyMap (s : GameState) (k : MoveKey) (v : Bool) : GameState :=
  { s with keyMap := s.keyMap.set k v }

/-- `captureMouse`: activates camera swing, stores the current pointer
position `(px, py)` as `lastMouseX`/`lastMouseY`, hides the cursor and
confines the mouse. -/
def captureMouse (s : GameState) (px py : ℚ) : GameState :=
  { s with cameraSwingActivated := true
           lastMouseX := px
           lastMouseY := py
           cursorHidden := true
           mouseConfined := true }

/-- `releaseMouse`: deactivates camera swing, shows the cursor, absolute
mouse mode. -/
def releaseMouse (s : GameState) : GameState :=
  { s with cameraSwingActivated := false
           cursorHidden := false
           mouseConfined := false }

/-- `toggleMenu`: leaving the menu recaptures the mouse at the current
pointer position `(px, py)`; entering it releases the mouse. -/
def toggleMenu (s : GameState) (px py : ℚ) : GameState :=
  if s.menuActive then captureMouse { s with menuActive := false } px py
  else releaseMouse { s with menuActive := true }

/-- The `'mouse3'` handler `handleLeftClick`: captures the mouse at the
current pointer position, then removes a block. -/
def handleLeftClick (s : GameState) (px py : ℚ) (q : List RayEntry) : GameState :=
  removeBlock (captureMouse s px py) q

/-- The per-frame `update` task.  `sinDeg`/`cosDeg` stand for
`sin(degToRad ·)` and `cos(degToRad ·)`; `dt` is `globalClock.getDt()`;
`(mouseX, mouseY)` is the pointer position from `win.getPointer(0)`. -/
def update (sinDeg cosDeg : ℚ → ℚ) (s : GameState) (dt mouseX mouseY : ℚ) :
    GameState :=
  if s.menuActive then s
  else
    let playerMoveSpeed : ℚ := 10
    let x_movement : ℚ :=
      (if s.keyMap.forward then -(dt * playerMoveSpeed * sinDeg s.camH) else 0) +
      (if s.keyMap.backward then dt * playerMoveSpeed * sinDeg s.camH else 0) +
      (if s.keyMap.left then -(dt * playerMoveSpeed * cosDeg s.camH) else 0) +
      (if s.keyMap.right then dt * playerMoveSpeed * cosDeg s.camH else 0)
    let y_movement : ℚ :=
      (if s.keyMap.forward then dt * playerMoveSpeed * cosDeg s.camH else 0) +
      (if s.keyMap.backward then -(dt * playerMoveSpeed * cosDeg s.camH) else 0) +
      (if s.keyMap.left then -(dt * playerMoveSpeed * sinDeg s.camH) else 0) +
      (if s.keyMap.right then dt * playerMoveSpeed * sinDeg s.camH else 0)
    let z_movement : ℚ :=
      (if s.keyMap.up then dt * playerMoveSpeed else 0) +
      (if s.keyMap.down then -(dt * playerMoveSpeed) else 0)
    let moved : GameState :=
      { s with camPos := ⟨s.camPos.x + x_movement, s.camPos.y + y_movement,
          s.camPos.z + z_movement⟩ }
    if moved.cameraSwingActivated then
      let mouseChangeX := mouseX - moved.lastMouseX
      let mouseChangeY := mouseY - moved.lastMouseY
      let cameraSwingFactor : ℚ := 10
      { moved with
          camH := moved.camH - mouseChangeX * dt * cameraSwingFactor
          camP := min 90 (max (-90)
            (moved.camP - mouseChangeY * dt * cameraSwingFactor))
          camR := 0
          lastMouseX := mouseX
          lastMouseY := mouseY }
    else moved

/-- The block created by `generateTerrain` for loop indices `(x, y, z)`. -/
def terrainBlock (x y z : ℕ) : Block :=
  mkBlockNode ((x : ℚ) * 2 - 20) ((y : ℚ) * 2 - 20) (-(z : ℚ) * 2)
    (if z = 0 then BlockType.grass else BlockType.dirt)

/-- `generateTerrain`: the triple loop
`for z in range(10): for y in range(20): for x in range(20)` calling
`createNewBlock(x*2 - 20, y*2 - 20, -z*2, 'grass' if z == 0 else 'dirt')`,
starting from an empty world. -/
def generateTerrain : List Block :=
  (List.range 10).foldl (fun w (z : ℕ) =>
    (List.range 20).foldl (fun w (y : ℕ) =>
      (List.range 20).foldl (fun w (x : ℕ) =>
        createNewBlock w ((x : ℚ) * 2 - 20) ((y : ℚ) * 2 - 20) (-(z : ℚ) * 2)
          (if z = 0 then BlockType.grass else BlockType.dirt)) w) w) []

/-- The flat form of the generated terrain, in loop order. -/
def terrainList : List Block :=
  (List.range 10).flatMap fun z =>
    (List.range 20).flatMap fun y =>
      (List.range 20).map fun x => terrainBlock x y z

/-! Supporting lemmas. -/

/-- The squared-distance comparison used in the embedding agrees with the
genuine Euclidean (square-root) distance comparison for a positive
threshold. -/
lemma distLT_iff_sqrt (p q : Vec3) (r : ℚ) (hr : 0 < r) :
    distLT p q r ↔ Real.sqrt ((sqDist p q : ℚ) : ℝ) < (r : ℝ) := by
  rw [Real.sqrt_lt' (by exact_mod_cast hr)]
  constructor
  · intro h
    have : ((sqDist p q : ℚ) : ℝ) < ((r * r : ℚ) : ℝ) := by exact_mod_cast h
    calc ((sqDist p q : ℚ) : ℝ) < ((r * r : ℚ) : ℝ) := this
      _ = (r : ℝ) ^ 2 := by push_cast; ring
  · intro h
    have : ((sqDist p q : ℚ) : ℝ) < ((r * r : ℚ) : ℝ) := by
      calc ((sqDist p q : ℚ) : ℝ) < (r : ℝ) ^ 2 := h
        _ = ((r * r : ℚ) : ℝ) := by push_cast; ring
    exact_mod_cast this

/-- `sortEntries` permutes the queue. -/
lemma mem_sortEntries {q : List RayEntry} {f : RayEntry} :
    f ∈ sortEntries q ↔ f ∈ q :=
  (List.perm_insertionSort keyLE q).mem_iff

/-- The head of the sorted queue (`getEntry(0)` after `sortEntries`) is a
nearest entry: its intersection distance is minimal over the queue. -/
lemma sortEntries_head_min {q : List RayEntry} {e : RayEntry}
    (h : (sortEntries q).head? = some e) :
    ∀ f ∈ q, e.sortKey ≤ f.sortKey := by
  intro f hf
  have hs : List.Sorted keyLE (sortEntries q) :=
    List.sorted_insertionSort keyLE q
  have hf' : f ∈ sortEntries q := mem_sortEntries.mpr hf
  cases hq : sortEntries q with
  | nil => rw [hq] at h; simp at h
  | cons a t =>
    rw [hq] at h hf' hs
    simp only [List.head?_cons, Option.some.injEq] at h
    subst h
    rcases List.mem_cons.mp hf' with h1 | h1
    · subst h1; exact le_refl _
    · exact (List.sorted_cons.mp hs).1 f h1

/-- An empty queue sorts to an empty queue, so `getNumEntries() > 0` holds
exactly when the sorted queue has a head. -/
lemma sortEntries_nil : sortEntries [] = [] := rfl

/-- Folding a per-element append (the world-growing loop body) flattens to a
single append of the mapped list. -/
lemma foldl_append_flat {α β : Type} (g : α → List β) :
    ∀ (l : List α) (w : List β),
      l.foldl (fun acc a => acc ++ g a) w = w ++ l.flatMap g := by
  intro l
  induction l with
  | nil => intro w; simp
  | cons a t ih => intro w; simp [ih, List.append_assoc]

/-- Singleton `flatMap` is `map`. -/
lemma flatMap_singleton_map {α β : Type} (f : α → β) :
    ∀ l : List α, (l.flatMap fun a => [f a]) = l.map f := by
  intro l
  induction l with
  | nil => rfl
  | cons a t ih => simp [ih]

/-- The terrain loop produces exactly the flat list `terrainList`. -/
lemma generateTerrain_eq : generateTerrain = terrainList := by
  have h1 : ∀ (z y : ℕ) (w : List Block),
      (List.range 20).foldl (fun w (x : ℕ) =>
        createNewBlock w ((x : ℚ) * 2 - 20) ((y : ℚ) * 2 - 20) (-(z : ℚ) * 2)
          (if z = 0 then BlockType.grass else BlockType.dirt)) w
      = w ++ (List.range 20).map fun x => terrainBlock x y z := by
    intro z y w
    have := foldl_append_flat
      (fun x : ℕ => [mkBlockNode ((x : ℚ) * 2 - 20) ((y : ℚ) * 2 - 20)
        (-(z : ℚ) * 2) (if z = 0 then BlockType.grass else BlockType.dirt)])
      (List.range 20) w
    simp only [createNewBlock]
    rw [this, flatMap_singleton_map]
    rfl
  have h2 : ∀ (z : ℕ) (w : List Block),
      (List.range 20).foldl (fun w (y : ℕ) =>
        w ++ ((List.range 20).map fun x => terrainBlock x y z)) w
      = w ++ ((List.range 20).flatMap fun y =>
          (List.range 20).map fun x => terrainBlock x y z) :=
    fun z w => foldl_append_flat _ (List.range 20) w
  unfold generateTerrain terrainList
  simp only [h1, h2]
  exact foldl_append_flat _ (List.range 10) []

/-- `removeBlock` touches only the `world` field. -/
lemma removeBlock_world_only (s : GameState) (q : List RayEntry) :
    removeBlock s q = { s with world := (removeBlock s q).world } := by
  rcases h1 : (sortEntries q).head? with _ | rayHit
  · simp [removeBlock, h1]
  · rcases h2 : s.world[rayHit.ownerIdx]? with _ | hitObject
    · simp [removeBlock, h1, h2]
    · by_cases hd : distLT hitObject.pos s.camPos 12 <;>
        simp [removeBlock, h1, h2, hd]

/-- `placeBlock` touches only the `world` field. -/
lemma placeBlock_world_only (s : GameState) (q : List RayEntry) :
    placeBlock s q = { s with world := (placeBlock s q).world } := by
  rcases h1 : (sortEntries q).head? with _ | rayHit
  · simp [placeBlock, h1]
  · rcases h2 : s.world[rayHit.ownerIdx]? with _ | hitObject
    · simp [placeBlock, h1, h2]
    · by_cases hd : distLT hitObject.pos s.camPos 14 <;>
        simp [placeBlock, h1, h2, hd]

/-- The world produced by `removeBlock` does not depend on the menu flag. -/
lemma removeBlock_world_menu (s : GameState) (q : List RayEntry) (b : Bool) :
    (removeBlock { s with menuActive := b } q).world = (removeBlock s q).world := by
  rcases h1 : (sortEntries q).head? with _ | rayHit
  · simp [removeBlock, h1]
  · rcases h2 : s.world[rayHit.ownerIdx]? with _ | hitObject
    · simp [removeBlock, h1, h2]
    · by_cases hd : distLT hitObject.pos s.camPos 12 <;>
        simp [removeBlock, h1, h2, hd]

/-- The world produced by `placeBlock` does not depend on the menu flag. -/
lemma placeBlock_world_menu (s : GameState) (q : List RayEntry) (b : Bool) :
    (placeBlock { s with menuActive := b } q).world = (placeBlock s q).world := by
  rcases h1 : (sortEntries q).head? with _ | rayHit
  · simp [placeBlock, h1]
  · rcases h2 : s.world[rayHit.ownerIdx]? with _ | hitObject
    · simp [placeBlock, h1, h2]
    · by_cases hd : distLT hitObject.pos s.camPos 14 <;>
        simp [placeBlock, h1, h2, hd]

/-- Any sequence of `placeBlock` calls keeps the selected block type. -/
lemma foldl_placeBlock_selected (qs : List (List RayEntry)) :
    ∀ s : GameState,
      (qs.foldl placeBlock s).selectedBlockType = s.selectedBlockType := by
  induction qs with
  | nil => intro s; rfl
  | cons q t ih =>
    intro s
    rw [List.foldl_cons, ih]
    rw [placeBlock_world_only s q]

/-! Concrete states used by the witnesses. -/

/-- No movement key held. -/
def baseKeyMap : KeyMap :=
  ⟨false, false, false, false, false, false⟩

/-- A state as after `__init__`ialisation but with an empty world: selected
type `'grass'`, menu off, mouse captured, camera at `(0, 0, 3)`. -/
def baseState : GameState :=
  { world := []
    selectedBlockType := BlockType.grass
    menuActive := false
    cameraSwingActivated := true
    keyMap := baseKeyMap
    camPos := ⟨0, 0, 3⟩
    camH := 0
    camP := 0
    camR := 0
    lastMouseX := 0
    lastMouseY := 0
    cursorHidden := true
    mouseConfined := true }

/-- A queue entry hitting the block node at world index 0, struck on the
`(0, 0, 1)` face. -/
def demoHit : RayEntry :=
  { sortKey := 9, ownerIdx := 0, normal := ⟨0, 0, 1⟩ }

/-- One block at the origin, camera 10 units above it. -/
def demoRemoveS : GameState :=
  { baseState with
      world := createNewBlock [] 0 0 0 BlockType.grass
      camPos := ⟨0, 0, 10⟩ }

/-- One block at the origin, camera 10 units above it, sand selected. -/
def demoPlaceS : GameState :=
  { baseState with
      world := createNewBlock [] 0 0 0 BlockType.grass
      camPos := ⟨0, 0, 10⟩
      selectedBlockType := BlockType.sand }

/-! Claim theorems. -/

/-- C1: for every non-empty ray-intersection queue, `removeBlock` sorts the
entries by ascending distance and takes the nearest entry; if the distance
from the camera to that entry's owning block node is strictly less than 12,
it clears the collider's `'owner'` tag and removes the block's scene node;
if the distance is 12 or more, or the queue is empty, no block is removed. -/
theorem C1_removeBlock_nearest (s : GameState) (q : List RayEntry)
    (rayHit : RayEntry) (hitObject : Block)
    (hnear : (sortEntries q).head? = some rayHit)
    (howner : s.world[rayHit.ownerIdx]? = some hitObject) :
    (∀ f ∈ q, rayHit.sortKey ≤ f.sortKey) ∧
    (distLT hitObject.pos s.camPos 12 →
      removeBlock s q = { s with world :=
        ((s.world.set rayHit.ownerIdx
          { hitObject with tagOwner := false }).eraseIdx rayHit.ownerIdx) }) ∧
    (¬ distLT hitObject.pos s.camPos 12 → removeBlock s q = s) ∧
    removeBlock s [] = s := by
  refine ⟨sortEntries_head_min hnear, ?_, ?_, rfl⟩
  · intro hd
    simp [removeBlock, hnear, howner, hd]
  · intro hd
    simp [removeBlock, hnear, howner, hd]

/-- C1 witness: a queue hitting the single block at the origin from a camera
10 units away removes that block. -/
theorem C1_removeBlock_nearest_witness :
    (sortEntries [demoHit]).head? = some demoHit ∧
    distLT (mkBlockNode 0 0 0 BlockType.grass).pos demoRemoveS.camPos 12 ∧
    removeBlock demoRemoveS [demoHit] = { demoRemoveS with world := [] } := by
  have h := C1_removeBlock_nearest demoRemoveS [demoHit] demoHit
    (mkBlockNode 0 0 0 BlockType.grass) rfl rfl
  refine ⟨rfl, ?_, ?_⟩
  · norm_num [mkBlockNode, distLT, sqDist, demoRemoveS, baseState]
  · have h2 := h.2.1
      (by norm_num [mkBlockNode, distLT, sqDist, demoRemoveS, baseState])
    rw [h2]
    rfl

/-- C2: for every non-empty ray-intersection queue whose nearest hit block is
at distance strictly less than 14 from the camera, `placeBlock` appends
exactly one new block of the currently selected type at the hit block's
position plus 2 times the hit surface normal. -/
theorem C2_placeBlock_offset (s : GameState) (q : List RayEntry)
    (rayHit : RayEntry) (hitObject : Block)
    (hnear : (sortEntries q).head? = some rayHit)
    (howner : s.world[rayHit.ownerIdx]? = some hitObject)
    (hdist : distLT hitObject.pos s.camPos 14) :
    placeBlock s q = { s with world := s.world ++
      [mkBlockNode (hitObject.pos.x + rayHit.normal.x * 2)
        (hitObject.pos.y + rayHit.normal.y * 2)
        (hitObject.pos.z + rayHit.normal.z * 2) s.selectedBlockType] } ∧
    (placeBlock s q).world.length = s.world.length + 1 := by
  have h : placeBlock s q = { s with world := s.world ++
      [mkBlockNode (hitObject.pos.x + rayHit.normal.x * 2)
        (hitObject.pos.y + rayHit.normal.y * 2)
        (hitObject.pos.z + rayHit.normal.z * 2) s.selectedBlockType] } := by
    simp [placeBlock, hnear, howner, hdist, createNewBlock]
  exact ⟨h, by rw [h]; simp⟩

/-- C2 witness: the spec scenario — a hit on the block at `(0, 0, 0)` at
distance 10 with surface normal `(0, 0, 1)` spawns a block of the selected
type (sand) at `(0, 0, 2)`. -/
theorem C2_placeBlock_offset_witness :
    distLT (mkBlockNode 0 0 0 BlockType.grass).pos demoPlaceS.camPos 14 ∧
    placeBlock demoPlaceS [demoHit] =
      { demoPlaceS with world :=
          demoPlaceS.world ++ [mkBlockNode 0 0 2 BlockType.sand] } := by
  have h := C2_placeBlock_offset demoPlaceS [demoHit] demoHit
    (mkBlockNode 0 0 0 BlockType.grass) rfl rfl
    (by norm_num [mkBlockNode, distLT, sqDist, demoPlaceS, baseState])
  refine ⟨by norm_num [mkBlockNode, distLT, sqDist, demoPlaceS, baseState], ?_⟩
  rw [h.1]
  norm_num [mkBlockNode, demoHit, demoPlaceS, baseState]

/-- Counting over a flattened list is the sum of the per-chunk counts. -/
lemma countP_flatMap {α β : Type} (p : β → Bool) (f : α → List β) :
    ∀ l : List α,
      ((l.flatMap f).countP p) = (l.map fun a => (f a).countP p).sum := by
  intro l
  induction l with
  | nil => rfl
  | cons a t ih => simp [List.countP_append, ih]

set_option maxRecDepth 4000

/-- C3: terrain generation creates exactly 4000 blocks, one for each integer
triple `(x, y, z)` with `x, y ∈ [0, 20)`, `z ∈ [0, 10)`, placed at world
position `(x*2 - 20, y*2 - 20, -z*2)` (see `terrainBlock`), with type grass
exactly when `z = 0` and dirt otherwise: exactly 400 grass and 3600 dirt
blocks. -/
theorem C3_generateTerrain_blocks :
    generateTerrain.length = 4000 ∧
    (generateTerrain.countP fun b => b.btype = BlockType.grass) = 400 ∧
    (generateTerrain.countP fun b => b.btype = BlockType.dirt) = 3600 ∧
    (∀ b ∈ generateTerrain,
      ∃ x < 20, ∃ y < 20, ∃ z < 10, b = terrainBlock x y z) ∧
    (∀ x < 20, ∀ y < 20, ∀ z < 10, terrainBlock x y z ∈ generateTerrain) := by
  rw [generateTerrain_eq]
  refine ⟨?_, ?_, ?_, ?_, ?_⟩
  · simp only [terrainList, List.length_flatMap, List.length_map,
      List.length_range]
    decide
  · simp only [terrainList, countP_flatMap, List.countP_map]
    decide
  · simp only [terrainList, countP_flatMap, List.countP_map]
    decide
  · intro b hb
    simp only [terrainList, List.mem_flatMap, List.mem_map,
      List.mem_range] at hb
    obtain ⟨z, hz, y, hy, x, hx, hxb⟩ := hb
    exact ⟨x, hx, y, hy, z, hz, hxb.symm⟩
  · intro x hx y hy z hz
    simp only [terrainList, List.mem_flatMap, List.mem_map, List.mem_range]
    exact ⟨z, hz, y, hy, x, hx, rfl⟩

/-- C3 witness: the corner block of the top layer is a grass block of the
generated terrain, which has 4000 blocks. -/
theorem C3_generateTerrain_blocks_witness :
    terrainBlock 0 0 0 ∈ generateTerrain ∧
    generateTerrain.length = 4000 ∧
    (terrainBlock 0 0 0).btype = BlockType.grass := by
  have h := C3_generateTerrain_blocks
  exact ⟨h.2.2.2.2 0 (by decide) 0 (by decide) 0 (by decide), h.1, rfl⟩

/-- A single block at `(0, 0, 12)`, camera at the origin: the nearest hit is
at distance exactly 12. -/
def edge12S : GameState :=
  { baseState with
      world := createNewBlock [] 0 0 12 BlockType.grass
      camPos := ⟨0, 0, 0⟩ }

/-- A single block at `(0, 0, 14)`, camera at the origin: the nearest hit is
at distance exactly 14. -/
def edge14S : GameState :=
  { baseState with
      world := createNewBlock [] 0 0 14 BlockType.dirt
      camPos := ⟨0, 0, 0⟩ }

/-- C4: with an empty ray queue, and with a nearest hit at distance `≥ 12`
(removal) or `≥ 14` (placement) — the boundary distances 12 and 14 included,
the bounds being exclusive — `removeBlock` and `placeBlock` leave the whole
program state unchanged. -/
theorem C4_out_of_range_noop (s : GameState) (q : List RayEntry)
    (rayHit : RayEntry) (hitObject : Block)
    (hnear : (sortEntries q).head? = some rayHit)
    (howner : s.world[rayHit.ownerIdx]? = some hitObject) :
    removeBlock s [] = s ∧
    placeBlock s [] = s ∧
    (¬ distLT hitObject.pos s.camPos 12 → removeBlock s q = s) ∧
    (¬ distLT hitObject.pos s.camPos 14 → placeBlock s q = s) := by
  refine ⟨rfl, rfl, ?_, ?_⟩ <;> intro hd <;>
    simp [removeBlock, placeBlock, hnear, howner, hd]

/-- C4 witness: a hit at distance exactly 12 does not remove, a hit at
distance exactly 14 does not place, and the empty queue is a no-op. -/
theorem C4_out_of_range_noop_witness :
    removeBlock edge12S [demoHit] = edge12S ∧
    placeBlock edge14S [demoHit] = edge14S ∧
    removeBlock edge12S [] = edge12S := by
  have h1 := C4_out_of_range_noop edge12S [demoHit] demoHit
    (mkBlockNode 0 0 12 BlockType.grass) rfl rfl
  have h2 := C4_out_of_range_noop edge14S [demoHit] demoHit
    (mkBlockNode 0 0 14 BlockType.dirt) rfl rfl
  exact ⟨h1.2.2.1 (by norm_num [mkBlockNode, distLT, sqDist, edge12S, baseState]),
    h2.2.2.2 (by norm_num [mkBlockNode, distLT, sqDist, edge14S, baseState]),
    h1.1⟩

/-- C5: numeric key `N ∈ {1, 2, 3, 4}` selects grass, dirt, sand or stone
respectively, and the selection is retained across any number of subsequent
placements. -/
theorem C5_numeric_key_selection (s : GameState) (qs : List (List RayEntry)) :
    (numericKeySelect s 1).selectedBlockType = BlockType.grass ∧
    (numericKeySelect s 2).selectedBlockType = BlockType.dirt ∧
    (numericKeySelect s 3).selectedBlockType = BlockType.sand ∧
    (numericKeySelect s 4).selectedBlockType = BlockType.stone ∧
    (∀ n : ℕ, (qs.foldl placeBlock (numericKeySelect s n)).selectedBlockType =
      (numericKeySelect s n).selectedBlockType) :=
  ⟨rfl, rfl, rfl, rfl, fun _ => foldl_placeBlock_selected qs _⟩

/-- A paused state: the menu is open. -/
def pausedS : GameState :=
  { baseState with menuActive := true }

/-- C6: while the pause menu is active, the per-frame `update` changes
nothing, regardless of held keys, elapsed time or mouse movement. -/
theorem C6_update_paused_noop (sinDeg cosDeg : ℚ → ℚ) (s : GameState)
    (dt mouseX mouseY : ℚ) (h : s.menuActive = true) :
    update sinDeg cosDeg s dt mouseX mouseY = s := by
  simp [update, h]

/-- C6 witness: a paused frame with time and mouse input is the identity. -/
theorem C6_update_paused_noop_witness :
    update (fun _ => 0) (fun _ => 0) pausedS 1 2 3 = pausedS :=
  C6_update_paused_noop (fun _ => 0) (fun _ => 0) pausedS 1 2 3 rfl

/-- C7: after an unpaused frame with camera swing active the pitch lies in
`[-90, 90]` and the roll is 0; the yaw strictly decreases on a rightward
mouse move (positive horizontal delta) in a frame with positive `dt`; and
every frame (any pause, swing or key state) preserves the
pitch-in-range-and-zero-roll invariant. -/
theorem C7_camera_orientation (sinDeg cosDeg : ℚ → ℚ) (s : GameState)
    (dt mouseX mouseY : ℚ) (hmenu : s.menuActive = false)
    (hswing : s.cameraSwingActivated = true) :
    (-90 ≤ (update sinDeg cosDeg s dt mouseX mouseY).camP ∧
      (update sinDeg cosDeg s dt mouseX mouseY).camP ≤ 90 ∧
      (update sinDeg cosDeg s dt mouseX mouseY).camR = 0) ∧
    (0 < dt → s.lastMouseX < mouseX →
      (update sinDeg cosDeg s dt mouseX mouseY).camH < s.camH) ∧
    (∀ s2 : GameState, ∀ dt2 mx2 my2 : ℚ,
      -90 ≤ s2.camP → s2.camP ≤ 90 → s2.camR = 0 →
      (-90 ≤ (update sinDeg cosDeg s2 dt2 mx2 my2).camP ∧
        (update sinDeg cosDeg s2 dt2 mx2 my2).camP ≤ 90 ∧
        (update sinDeg cosDeg s2 dt2 mx2 my2).camR = 0)) := by
  refine ⟨?_, ?_, ?_⟩
  · simp only [update, hmenu, hswing]
    norm_num
  · intro hdt hmx
    simp only [update, hmenu, hswing]
    norm_num
    have hpos : 0 < (mouseX - s.lastMouseX) * dt * 10 := by
      have h1 : 0 < mouseX - s.lastMouseX := sub_pos.mpr hmx
      positivity
    linarith
  · intro s2 dt2 mx2 my2 h1 h2 h3
    by_cases hm : s2.menuActive
    · simp only [update, hm]
      exact ⟨by simpa using h1, by simpa using h2, by simpa using h3⟩
    · by_cases hsw : s2.cameraSwingActivated
      · simp only [update, hm, hsw]
        norm_num
      · simp only [update, hm, hsw]
        norm_num
        exact ⟨h1, h2, h3⟩

/-- An unpaused state with camera swing active and the pointer one unit to
the right of the last captured position. -/
def swingS : GameState :=
  { baseState with camH := 30, camP := 10 }

/-- C7 witness: a concrete unpaused swing frame keeps pitch in range, zeroes
the roll, and decreases the yaw under a rightward mouse delta. -/
theorem C7_camera_orientation_witness :
    -90 ≤ (update (fun _ => 0) (fun _ => 0) swingS 1 1 0).camP ∧
    (update (fun _ => 0) (fun _ => 0) swingS 1 1 0).camP ≤ 90 ∧
    (update (fun _ => 0) (fun _ => 0) swingS 1 1 0).camR = 0 ∧
    (update (fun _ => 0) (fun _ => 0) swingS 1 1 0).camH < swingS.camH := by
  have h := C7_camera_orientation (fun _ => 0) (fun _ => 0) swingS 1 1 0 rfl rfl
  exact ⟨h.1.1, h.1.2.1, h.1.2.2, h.2.1 (by norm_num) (by norm_num [swingS, baseState])⟩

/-- A world with blocks at `(0, 0, 0)` and `(0, 0, 2)`, camera 10 units
above the origin, stone selected: a placement on the top face of the origin
block targets the already-occupied position `(0, 0, 2)`. -/
def dupState : GameState :=
  { baseState with
      world := createNewBlock (createNewBlock [] 0 0 0 BlockType.grass)
        0 0 2 BlockType.dirt
      camPos := ⟨0, 0, 10⟩
      selectedBlockType := BlockType.stone }

/-- C8: `placeBlock` performs no occupancy check: placing onto a face whose
outward cell already holds a block still spawns a new block there, so two
blocks at identical coordinates coexist. -/
theorem C8_no_occupancy_check :
    ((dupState.world.countP fun b => b.pos = (⟨0, 0, 2⟩ : Vec3)) = 1) ∧
    (((placeBlock dupState [demoHit]).world.countP
      fun b => b.pos = (⟨0, 0, 2⟩ : Vec3)) = 2) := by
  constructor
  · norm_num [dupState, baseState, createNewBlock, mkBlockNode,
      List.countP_cons, Vec3.mk.injEq]
  · norm_num [placeBlock, sortEntries, List.insertionSort, List.orderedInsert,
      demoHit, dupState, baseState, createNewBlock, mkBlockNode, distLT,
      sqDist, List.countP_cons, List.countP_append, Vec3.mk.injEq]

/-- C9: the mouse-click handlers are not gated on the pause state: with the
menu flag forced to either value, `placeBlock`, `removeBlock` and the
right-click handler compute the very same successor state (apart from the
untouched flag itself). -/
theorem C9_clicks_not_pause_gated (s : GameState) (q : List RayEntry)
    (px py : ℚ) (b : Bool) :
    placeBlock { s with menuActive := b } q =
      { placeBlock s q with menuActive := b } ∧
    removeBlock { s with menuActive := b } q =
      { removeBlock s q with menuActive := b } ∧
    handleLeftClick { s with menuActive := b } px py q =
      { handleLeftClick s px py q with menuActive := b } := by
  refine ⟨?_, ?_, ?_⟩
  · conv_lhs => rw [placeBlock_world_only { s with menuActive := b } q]
    conv_rhs => rw [placeBlock_world_only s q]
    rw [placeBlock_world_menu]
  · conv_lhs => rw [removeBlock_world_only { s with menuActive := b } q]
    conv_rhs => rw [removeBlock_world_only s q]
    rw [removeBlock_world_menu]
  · show removeBlock (captureMouse { s with menuActive := b } px py) q = _
    have hc : captureMouse { s with menuActive := b } px py =
        { captureMouse s px py with menuActive := b } := rfl
    rw [hc]
    conv_lhs =>
      rw [removeBlock_world_only { captureMouse s px py with menuActive := b } q]
    rw [removeBlock_world_menu]
    conv_rhs =>
      rw [show handleLeftClick s px py q = removeBlock (captureMouse s px py) q
        from rfl]
      rw [removeBlock_world_only (captureMouse s px py) q]

/-- `removeBlock` leaves the mouse-capture fields untouched. -/
lemma removeBlock_capture_fields (s : GameState) (q : List RayEntry) :
    (removeBlock s q).cameraSwingActivated = s.cameraSwingActivated ∧
    (removeBlock s q).lastMouseX = s.lastMouseX ∧
    (removeBlock s q).lastMouseY = s.lastMouseY := by
  refine ⟨?_, ?_, ?_⟩ <;> conv_lhs => rw [removeBlock_world_only s q]

/-- `placeBlock` leaves the mouse-capture fields untouched. -/
lemma placeBlock_capture_fields (s : GameState) (q : List RayEntry) :
    (placeBlock s q).cameraSwingActivated = s.cameraSwingActivated ∧
    (placeBlock s q).lastMouseX = s.lastMouseX ∧
    (placeBlock s q).lastMouseY = s.lastMouseY := by
  refine ⟨?_, ?_, ?_⟩ <;> conv_lhs => rw [placeBlock_world_only s q]

/-- C10: the right-click (removal) handler first captures the mouse —
activating camera swing and resetting the last pointer position — even when
the removal itself is a no-op, while the left-click (placement) handler
performs no such mouse-capture side effect. -/
theorem C10_rightclick_mouse_capture (s : GameState) (px py : ℚ)
    (q : List RayEntry) :
    (handleLeftClick s px py q).cameraSwingActivated = true ∧
    (handleLeftClick s px py q).lastMouseX = px ∧
    (handleLeftClick s px py q).lastMouseY = py ∧
    (placeBlock s q).cameraSwingActivated = s.cameraSwingActivated ∧
    (placeBlock s q).lastMouseX = s.lastMouseX ∧
    (placeBlock s q).lastMouseY = s.lastMouseY := by
  have hr := removeBlock_capture_fields (captureMouse s px py) q
  have hp := placeBlock_capture_fields s q
  exact ⟨hr.1, hr.2.1, hr.2.2, hp.1, hp.2.1, hp.2.2⟩

end BootlegCraft
